import Mathlib

/-!
Verification of the expression type-checking pass
(`src/compiler/passes/src/type_checker/check_expressions.rs`).

The checker is embedded shallowly:

* `Ty` mirrors `leo_ast::Type` (restricted to the variants the checker
  manipulates), `IntegerType` mirrors the ten integer widths.
* `Expr`, `AccessExpr`, `ExprList`, `InitList` mirror the expression AST;
  argument and initializer lists are first-order inductive lists so the
  visitor recursion stays structural.
* `St` is the mutable checker state: the `negate` context flag and the
  append-only diagnostic sink.
* `Context` packages the read-only external collaborators (symbol table
  and intrinsic registry) as lookup functions.
* `visit_expression` and its siblings are direct translations of the
  `ExpressionVisitorDirector` methods; `return_incorrect_type` is the
  pairwise reconciliation primitive at the top of the source file.

Helper assertions (`assert_expected_option`, `assert_int_type`, ...) are
declared in the repository's `TypeChecker` (not part of the sources under
verification); they are modelled from the spec's §4.1/§4.3 where noted.
-/

/-- Integer width/signedness tags, mirroring `leo_ast::IntegerType`. -/
inductive IntegerType where
  | i8 | i16 | i32 | i64 | i128
  | u8 | u16 | u32 | u64 | u128
deriving DecidableEq, Repr

/-- Signedness of an integer type. -/
def IntegerType.isSigned : IntegerType → Bool
  | .i8 | .i16 | .i32 | .i64 | .i128 => true
  | _ => false

/-- Bit width of an integer type. -/
def IntegerType.bits : IntegerType → Nat
  | .i8 => 8 | .i16 => 16 | .i32 => 32 | .i64 => 64 | .i128 => 128
  | .u8 => 8 | .u16 => 16 | .u32 => 32 | .u64 => 64 | .u128 => 128

/-- Rust name of an integer type, as used in the invalid-literal diagnostic. -/
def IntegerType.rustName : IntegerType → String
  | .i8 => "i8" | .i16 => "i16" | .i32 => "i32" | .i64 => "i64" | .i128 => "i128"
  | .u8 => "u8" | .u16 => "u16" | .u32 => "u32" | .u64 => "u64" | .u128 => "u128"

/-- Semantic types, mirroring `leo_ast::Type` (structural equality only). -/
inductive Ty where
  | boolean
  | field
  | group
  | scalar
  | address
  | string
  | integerType (i : IntegerType)
  | identifier (name : String)
deriving DecidableEq, Repr

/-- Diagnostics emitted by the checker (`TypeCheckerError` variants). -/
inductive Diag where
  | unknownSym (category : String) (name : String)
  | incorrectNumArgsToCall (expected actual : Nat)
  | incorrectNumCircuitMembers (expected actual : Nat)
  | invalidIntValue (text : String) (tyName : String)
  | typeShouldBe (actual : Ty) (expected : Ty)
  | typesShouldBeEqual (t1 t2 : Ty)
  | notOneOfTypes (actual : Ty)
  | invalidAccessExpression
  | typeIsNotNegatable (t : Ty)
deriving DecidableEq, Repr

/-- The checker's mutable state: the negate context flag and the
append-only diagnostic sink. -/
structure St where
  negate : Bool
  diags : List Diag
deriving DecidableEq, Repr

/-- Append one diagnostic to the sink (`emit_err`). -/
def St.emit (st : St) (d : Diag) : St :=
  ⟨st.negate, st.diags ++ [d]⟩

/-- A circuit/record declaration: name and ordered named members. -/
structure Circuit where
  name : String
  members : List (String × Ty)
deriving DecidableEq, Repr

/-- A function declaration: ordered parameter types and return type. -/
structure FunctionDecl where
  input : List Ty
  output : Ty
deriving DecidableEq, Repr

/-- An intrinsic ("core instruction") descriptor: arity, permitted types
per argument position, and return type. -/
structure CoreInstruction where
  numArgs : Nat
  firstArgTypes : List Ty
  secondArgTypes : List Ty
  returnType : Ty
deriving DecidableEq, Repr

/-- Read-only external collaborators: symbol table lookups and the
intrinsic registry (`assert_core_circuit_call`'s lookup). -/
structure Context where
  circuits : String → Option Circuit
  vars : String → Option Ty
  fns : String → Option FunctionDecl
  core : Ty → String → Option CoreInstruction

/-! ## Type-classification predicates (spec §4.1)

Modelled from the spec: the `TypeChecker`'s `assert_*_type` helpers live
outside the sources under verification; per §4.1/§7 each checks an
optional type against a pure predicate and emits a "not one of expected
types" diagnostic when the type is known and outside the set (an unknown
type is never reported here — its cause was reported where it arose). -/

/-- Membership in the boolean-or-integer group. -/
def Ty.isBoolInt : Ty → Bool
  | .boolean => true
  | .integerType _ => true
  | _ => false

/-- Membership in the field/group/scalar/integer group. -/
def Ty.isFieldGroupScalarInt : Ty → Bool
  | .field | .group | .scalar => true
  | .integerType _ => true
  | _ => false

/-- Membership in the field/group/integer group. -/
def Ty.isFieldGroupInt : Ty → Bool
  | .field | .group => true
  | .integerType _ => true
  | _ => false

/-- Membership in the field/integer group. -/
def Ty.isFieldInt : Ty → Bool
  | .field => true
  | .integerType _ => true
  | _ => false

/-- Integer types. -/
def Ty.isInt : Ty → Bool
  | .integerType _ => true
  | _ => false

/-- Signed integer types. -/
def Ty.isSignedInt : Ty → Bool
  | .integerType i => i.isSigned
  | _ => false

/-- The magnitude predicate: 8/16/32-bit unsigned integer types. -/
def Ty.isMagnitude : Ty → Bool
  | .integerType .u8 | .integerType .u16 | .integerType .u32 => true
  | _ => false

/-- Membership in the field-or-group group. -/
def Ty.isFieldGroup : Ty → Bool
  | .field | .group => true
  | _ => false

/-- Membership in the field-or-scalar group. -/
def Ty.isFieldScalar : Ty → Bool
  | .field | .scalar => true
  | _ => false

/-! ## Reconciliation primitives -/

/-- The pairwise reconciliation primitive, translated verbatim from
`return_incorrect_type` in `check_expressions.rs`. -/
def return_incorrect_type (t1 t2 : Option Ty) (expected : Option Ty) : Option Ty :=
  match t1, t2 with
  | some t1, some t2 =>
    if t1 = t2 then some t1
    else
      match expected with
      | some e => if t1 ≠ e then some t1 else some t2
      | none => some t1
  | _, _ => none

/-- Modelled from the spec (§4.3 `reconcile`): `assert_expected_option`
reconciles a known synthesized type against an optional expectation —
on mismatch it emits a type-mismatch diagnostic and the caller's
requirement wins. -/
def assert_expected_option (actual : Ty) (expected : Option Ty) (st : St) : Ty × St :=
  match expected with
  | some e => if actual = e then (actual, st) else (e, st.emit (Diag.typeShouldBe actual e))
  | none => (actual, st)

/-- Modelled from the spec (§4.3 `reconcile`): `assert_expected_type`
reconciles an optional synthesized type against a known requirement;
the requirement is returned. -/
def assert_expected_type (actual : Option Ty) (expected : Ty) (st : St) : Ty × St :=
  match actual with
  | some a => if a = expected then (expected, st) else (expected, st.emit (Diag.typeShouldBe a expected))
  | none => (expected, st)

/-- Modelled from the spec (§4.1/§7): generic domain assertion on an
optional type against a classification predicate. -/
def assert_type (cond : Ty → Bool) (t : Option Ty) (st : St) : St :=
  match t with
  | some ty => if cond ty then st else st.emit (Diag.notOneOfTypes ty)
  | none => st

/-- `assert_bool_int_type`. -/
def assert_bool_int_type (t : Option Ty) (st : St) : St :=
  assert_type Ty.isBoolInt t st

/-- `assert_field_group_scalar_int_type`. -/
def assert_field_group_scalar_int_type (t : Option Ty) (st : St) : St :=
  assert_type Ty.isFieldGroupScalarInt t st

/-- `assert_field_group_int_type`. -/
def assert_field_group_int_type (t : Option Ty) (st : St) : St :=
  assert_type Ty.isFieldGroupInt t st

/-- `assert_field_int_type`. -/
def assert_field_int_type (t : Option Ty) (st : St) : St :=
  assert_type Ty.isFieldInt t st

/-- `assert_int_type`. -/
def assert_int_type (t : Option Ty) (st : St) : St :=
  assert_type Ty.isInt t st

/-- `assert_signed_int_type`. -/
def assert_signed_int_type (t : Option Ty) (st : St) : St :=
  assert_type Ty.isSignedInt t st

/-- `assert_magnitude_type`. -/
def assert_magnitude_type (t : Option Ty) (st : St) : St :=
  assert_type Ty.isMagnitude t st

/-- `assert_field_group_type`. -/
def assert_field_group_type (t : Option Ty) (st : St) : St :=
  assert_type Ty.isFieldGroup t st

/-- `assert_field_scalar_type`. -/
def assert_field_scalar_type (t : Option Ty) (st : St) : St :=
  assert_type Ty.isFieldScalar t st

/-- Modelled from the spec (§4.3 equal/not-equal row): `assert_eq_types`
emits a mismatch when both sides are known and unequal. -/
def assert_eq_types (t1 t2 : Option Ty) (st : St) : St :=
  match t1, t2 with
  | some a, some b => if a = b then st else st.emit (Diag.typesShouldBeEqual a b)
  | _, _ => st

/-- Modelled from the spec (§4.3 access row): `assert_one_of_types` emits
a "not one of expected types" diagnostic when the type is known and not
in the permitted set. -/
def assert_one_of_types (t : Option Ty) (allowed : List Ty) (st : St) : St :=
  match t with
  | some a => if allowed.contains a then st else st.emit (Diag.notOneOfTypes a)
  | none => st

/-- Modelled from the spec (§4.3 circuit-initializer paragraph):
`assert_expected_circuit` reconciles the declaration's nominal type
against the expectation, like `assert_expected_option`. -/
def assert_expected_circuit (circName : String) (expected : Option Ty) (st : St) : Ty × St :=
  assert_expected_option (Ty.identifier circName) expected st

/-! ## Rust decimal-literal parsing (`str::parse::<iN>` / `::<uN>`) -/

/-- Decimal digit test. -/
def isDigit (c : Char) : Bool :=
  decide ('0'.toNat ≤ c.toNat) && decide (c.toNat ≤ '9'.toNat)

/-- Value of a digit list, most significant first. -/
def digitsVal (cs : List Char) : Nat :=
  cs.foldl (fun a c => 10 * a + (c.toNat - '0'.toNat)) 0

/-- Value of a nonempty all-digit list; `none` otherwise. -/
def decDigits (cs : List Char) : Option Nat :=
  if cs ≠ [] && cs.all isDigit then some (digitsVal cs) else none

/-- Rust `str::parse` for a signed integer of the given bit width:
an optional `+`/`-` sign followed by at least one digit, value within
`[-2^(bits-1), 2^(bits-1) - 1]`. -/
def rustParseSigned (bits : Nat) (s : String) : Bool :=
  match s.data with
  | '-' :: rest => (decDigits rest).elim false (fun n => n ≤ 2 ^ (bits - 1))
  | '+' :: rest => (decDigits rest).elim false (fun n => n + 1 ≤ 2 ^ (bits - 1))
  | cs => (decDigits cs).elim false (fun n => n + 1 ≤ 2 ^ (bits - 1))

/-- Rust `str::parse` for an unsigned integer of the given bit width:
an optional `+` sign followed by at least one digit, value below `2^bits`.
A `-` sign is rejected for unsigned targets. -/
def rustParseUnsigned (bits : Nat) (s : String) : Bool :=
  match s.data with
  | '+' :: rest => (decDigits rest).elim false (fun n => n + 1 ≤ 2 ^ bits)
  | cs => (decDigits cs).elim false (fun n => n + 1 ≤ 2 ^ bits)

/-- The `maybe_negate` closure of `visit_literal`: prefix a minus sign
when the negate context flag is set. -/
def maybe_negate (negate : Bool) (s : String) : String :=
  if negate then "-" ++ s else s

/-- The integer arm of `visit_literal`: the diagnostics produced by the
per-width `check_int_parsed` calls. Signed widths parse the possibly
negated text; unsigned widths parse the raw text. -/
def checkIntLiteral (negate : Bool) (ty : IntegerType) (text : String) : List Diag :=
  match ty with
  | .i8 =>
    let int := maybe_negate negate text
    if rustParseSigned 8 int then [] else [Diag.invalidIntValue int "i8"]
  | .i16 =>
    let int := maybe_negate negate text
    if rustParseSigned 16 int then [] else [Diag.invalidIntValue int "i16"]
  | .i32 =>
    let int := maybe_negate negate text
    if rustParseSigned 32 int then [] else [Diag.invalidIntValue int "i32"]
  | .i64 =>
    let int := maybe_negate negate text
    if rustParseSigned 64 int then [] else [Diag.invalidIntValue int "i64"]
  | .i128 =>
    let int := maybe_negate negate text
    if rustParseSigned 128 int then [] else [Diag.invalidIntValue int "i128"]
  | .u8 => if rustParseUnsigned 8 text then [] else [Diag.invalidIntValue text "u8"]
  | .u16 => if rustParseUnsigned 16 text then [] else [Diag.invalidIntValue text "u16"]
  | .u32 => if rustParseUnsigned 32 text then [] else [Diag.invalidIntValue text "u32"]
  | .u64 => if rustParseUnsigned 64 text then [] else [Diag.invalidIntValue text "u64"]
  | .u128 => if rustParseUnsigned 128 text then [] else [Diag.invalidIntValue text "u128"]

/-! ## Expression AST -/

/-- Unary operators, mirroring `leo_ast::UnaryOperation`. -/
inductive UnaryOp where
  | abs | absWrapped | double | inverse | negate | not | square | squareRoot
deriving DecidableEq, Repr

/-- Binary operators, mirroring `leo_ast::BinaryOperation`. -/
inductive BinaryOp where
  | and | or | nand | nor
  | bitwiseAnd | bitwiseOr | xor
  | add | sub | mul | div | pow
  | eq | neq
  | lt | gt | lte | gte
  | addWrapped | subWrapped | divWrapped | mulWrapped
  | shl | shlWrapped | shr | shrWrapped | powWrapped
deriving DecidableEq, Repr

/-- Literal expressions, mirroring `leo_ast::LiteralExpression` (integer
literals carry the declared width/signedness and the raw decimal text). -/
inductive Literal where
  | addressLit (s : String)
  | booleanLit (b : Bool)
  | fieldLit (s : String)
  | integerLit (ty : IntegerType) (text : String)
  | groupLit
  | scalarLit (s : String)
  | stringLit (s : String)
deriving DecidableEq, Repr

mutual
/-- Expressions, mirroring `leo_ast::Expression`. -/
inductive Expr where
  | access (a : AccessExpr)
  | identifier (name : String)
  | literal (l : Literal)
  | binary (op : BinaryOp) (left right : Expr)
  | call (function : Expr) (arguments : ExprList)
  | circuitInit (name : String) (members : InitList)
  | errExpr
  | ternary (condition ifTrue ifFalse : Expr)
  | unary (op : UnaryOp) (receiver : Expr)

/-- Access expressions. The checker's `visit_access` matches an
`AssociatedFunction` variant and lets every other shape (member and
tuple access, per `expression/accesses.rs`) fall through to its
catch-all arm; the `AssociatedFunction` payload (receiver type name,
function name, argument list) is modelled from the spec's §3/§4.3. -/
inductive AccessExpr where
  | member (inner : Expr) (name : String)
  | tupleAccess (inner : Expr) (index : Nat)
  | associatedFunction (ty : Ty) (name : String) (args : ExprList)

/-- First-order list of argument expressions. -/
inductive ExprList where
  | nil
  | cons (head : Expr) (tail : ExprList)

/-- First-order list of circuit-initializer members
(`CircuitVariableInitializer`: name plus optional value expression;
`consNone` is the shorthand form with no expression). -/
inductive InitList where
  | nil
  | consSome (name : String) (value : Expr) (tail : InitList)
  | consNone (name : String) (tail : InitList)
end

/-- Length of an argument list. -/
def ExprList.length : ExprList → Nat
  | .nil => 0
  | .cons _ t => t.length + 1

/-- Argument list as a plain list. -/
def ExprList.toList : ExprList → List Expr
  | .nil => []
  | .cons h t => h :: t.toList

/-- Number of supplied initializers. -/
def InitList.length : InitList → Nat
  | .nil => 0
  | .consSome _ _ t => t.length + 1
  | .consNone _ t => t.length + 1

/-- The `find` over supplied initializers in `visit_circuit_init`:
first member with the given name, yielding its optional expression. -/
def findInit : InitList → String → Option (Option Expr)
  | .nil, _ => none
  | .consSome n e rest, x => if n = x then some (some e) else findInit rest x
  | .consNone n rest, x => if n = x then some none else findInit rest x

/-! ## Non-recursive visitor methods -/

/-- `visit_identifier`: resolve against the circuit namespace first, then
the variable namespace; failure emits unknown-symbol("variable"). -/
def visit_identifier (ctx : Context) (name : String) (expected : Option Ty) (st : St) :
    Option Ty × St :=
  match ctx.circuits name with
  | some circ =>
    let (t, st') := assert_expected_option (Ty.identifier circ.name) expected st
    (some t, st')
  | none =>
    match ctx.vars name with
    | some ty =>
      let (t, st') := assert_expected_option ty expected st
      (some t, st')
    | none => (none, st.emit (Diag.unknownSym "variable" name))

/-- `visit_literal`: fixed intrinsic types reconcile directly; integer
literals run the per-width parse check (signed widths see the
negate-prefixed text) and then reconcile their declared type. -/
def visit_literal (l : Literal) (expected : Option Ty) (st : St) : Option Ty × St :=
  match l with
  | .addressLit _ =>
    let (t, st') := assert_expected_option Ty.address expected st
    (some t, st')
  | .booleanLit _ =>
    let (t, st') := assert_expected_option Ty.boolean expected st
    (some t, st')
  | .fieldLit _ =>
    let (t, st') := assert_expected_option Ty.field expected st
    (some t, st')
  | .integerLit ty text =>
    let st1 : St := ⟨st.negate, st.diags ++ checkIntLiteral st.negate ty text⟩
    let (t, st') := assert_expected_option (Ty.integerType ty) expected st1
    (some t, st')
  | .groupLit =>
    let (t, st') := assert_expected_option Ty.group expected st
    (some t, st')
  | .scalarLit _ =>
    let (t, st') := assert_expected_option Ty.scalar expected st
    (some t, st')
  | .stringLit _ =>
    let (t, st') := assert_expected_option Ty.string expected st
    (some t, st')

/-! ## The recursive visitor (`ExpressionVisitorDirector` impl)

The `TypeChecker`'s `ExpressionVisitor` impl is empty, so every pre-visit
filter hook is the default `VisitResult::VisitChildren`; no veto is
modelled. -/

/-- An expression found among the supplied initializers is structurally
smaller than the initializer list. -/
theorem findInit_sizeOf : ∀ (il : InitList) (x : String) (e : Expr),
    findInit il x = some (some e) → sizeOf e < sizeOf il
  | .nil, x, e, h => by simp [findInit] at h
  | .consSome n v rest, x, e, h => by
    simp only [findInit] at h
    by_cases hc : n = x
    · rw [if_pos hc] at h
      simp only [Option.some.injEq] at h
      subst h
      simp only [InitList.consSome.sizeOf_spec]
      omega
    · rw [if_neg hc] at h
      have := findInit_sizeOf rest x e h
      simp only [InitList.consSome.sizeOf_spec]
      omega
  | .consNone n rest, x, e, h => by
    simp only [findInit] at h
    by_cases hc : n = x
    · rw [if_pos hc] at h
      simp at h
    · rw [if_neg hc] at h
      have := findInit_sizeOf rest x e h
      simp only [InitList.consNone.sizeOf_spec]
      omega

set_option maxHeartbeats 4000000 in
mutual
/-- `visit_expression`: dispatch on the expression variant. The `Err`
variant is modelled from the spec (§3): already-erroneous, never
type-checked further, yielding no type and no diagnostic. -/
def visit_expression (ctx : Context) (e : Expr) (expected : Option Ty) (st : St) :
    Option Ty × St :=
  match e with
  | .access a => visit_access ctx a expected st
  | .identifier name => visit_identifier ctx name expected st
  | .literal l => visit_literal l expected st
  | .binary op l r => visit_binary ctx op l r expected st
  | .call f args => visit_call ctx f args expected st
  | .circuitInit name members => visit_circuit_init ctx name members expected st
  | .errExpr => (none, st)
  | .ternary c t f => visit_ternary ctx c t f expected st
  | .unary op r => visit_unary ctx op r expected st
termination_by (sizeOf e, 1, 0)
decreasing_by
  all_goals simp_wf
  all_goals simp only [Prod.lex_def]
  all_goals simp_arith

/-- `visit_access`: only associated-function access on a registered core
circuit is handled; every other access shape falls through to the
catch-all arm and yields no type and no diagnostic. -/
def visit_access (ctx : Context) (input : AccessExpr) (expected : Option Ty) (st : St) :
    Option Ty × St :=
  match input with
  | .associatedFunction ty name args =>
    match ctx.core ty name with
    | some core_instruction =>
      let st1 :=
        if core_instruction.numArgs ≠ args.length then
          st.emit (Diag.incorrectNumArgsToCall core_instruction.numArgs args.length)
        else st
      let st2 :=
        match args with
        | .cons first_arg _ =>
          let (t1, s) := visit_expression ctx first_arg none st1
          assert_one_of_types t1 core_instruction.firstArgTypes s
        | .nil => st1
      let st3 :=
        match args with
        | .cons _ (.cons second_arg _) =>
          let (t2, s) := visit_expression ctx second_arg none st2
          assert_one_of_types t2 core_instruction.secondArgTypes s
        | _ => st2
      let (t, st4) := assert_expected_option core_instruction.returnType expected st3
      (some t, st4)
    | none => (none, st.emit Diag.invalidAccessExpression)
  | .member _ _ => (none, st)
  | .tupleAccess _ _ => (none, st)
termination_by (sizeOf input, 0, 0)
decreasing_by
  all_goals simp_wf
  all_goals simp only [Prod.lex_def]
  all_goals simp_arith

/-- `visit_binary`: per-operator typing rules. -/
def visit_binary (ctx : Context) (op : BinaryOp) (left right : Expr)
    (destination : Option Ty) (st : St) : Option Ty × St :=
  match op with
  | .and | .or | .nand | .nor =>
    let st0 := (assert_expected_option Ty.boolean destination st).2
    let (t1, st1) := visit_expression ctx left destination st0
    let (t2, st2) := visit_expression ctx right destination st1
    (return_incorrect_type t1 t2 destination, st2)
  | .bitwiseAnd | .bitwiseOr | .xor =>
    let st0 := assert_bool_int_type destination st
    let (t1, st1) := visit_expression ctx left destination st0
    let (t2, st2) := visit_expression ctx right destination st1
    (return_incorrect_type t1 t2 destination, st2)
  | .add =>
    let st0 := assert_field_group_scalar_int_type destination st
    let (t1, st1) := visit_expression ctx left destination st0
    let (t2, st2) := visit_expression ctx right destination st1
    (return_incorrect_type t1 t2 destination, st2)
  | .sub =>
    let st0 := assert_field_group_int_type destination st
    let (t1, st1) := visit_expression ctx left destination st0
    let (t2, st2) := visit_expression ctx right destination st1
    (return_incorrect_type t1 t2 destination, st2)
  | .mul =>
    let st0 := assert_field_group_int_type destination st
    let (t1, st1) := visit_expression ctx left none st0
    let (t2, st2) := visit_expression ctx right none st1
    match t1, t2 with
    | some Ty.group, other =>
      let st3 := (assert_expected_type other Ty.scalar st2).2
      let (t, st4) := assert_expected_type destination Ty.group st3
      (some t, st4)
    | other, some Ty.group =>
      let st3 := (assert_expected_type other Ty.scalar st2).2
      let (t, st4) := assert_expected_type destination Ty.group st3
      (some t, st4)
    | t1, t2 =>
      let st3 := assert_field_int_type destination st2
      (return_incorrect_type t1 t2 destination, st3)
  | .div =>
    let st0 := assert_field_int_type destination st
    let (t1, st1) := visit_expression ctx left destination st0
    let (t2, st2) := visit_expression ctx right destination st1
    (return_incorrect_type t1 t2 destination, st2)
  | .pow =>
    let st0 := assert_field_int_type destination st
    let (t1, st1) := visit_expression ctx left none st0
    let (t2, st2) := visit_expression ctx right none st1
    match t1, t2 with
    | some Ty.field, type_ =>
      let st3 := (assert_expected_type type_ Ty.field st2).2
      let (t, st4) := assert_expected_type destination Ty.field st3
      (some t, st4)
    | type_, some Ty.field =>
      let st3 := (assert_expected_type type_ Ty.field st2).2
      let (t, st4) := assert_expected_type destination Ty.field st3
      (some t, st4)
    | some t1, t2 =>
      let st3 := assert_magnitude_type t2 st2
      let (t, st4) := assert_expected_type destination t1 st3
      (some t, st4)
    | none, t2 =>
      let st3 := assert_magnitude_type t2 st2
      (destination, st3)
  | .eq | .neq =>
    let (t1, st1) := visit_expression ctx left none st
    let (t2, st2) := visit_expression ctx right none st1
    let st3 :=
      match t1, t2 with
      | some (Ty.integerType _), t2 => assert_int_type t2 st2
      | t1, some (Ty.integerType _) => assert_int_type t1 st2
      | t1, t2 => assert_eq_types t1 t2 st2
    let (t, st4) := assert_expected_type destination Ty.boolean st3
    (some t, st4)
  | .lt | .gt | .lte | .gte =>
    let (t1, st1) := visit_expression ctx left none st
    let (t2, st2) := visit_expression ctx right none st1
    let st3 :=
      match t1, t2 with
      | some Ty.address, t2 => (assert_expected_type t2 Ty.address st2).2
      | t1, some Ty.address => (assert_expected_type t1 Ty.address st2).2
      | some Ty.field, t2 => (assert_expected_type t2 Ty.field st2).2
      | t1, some Ty.field => (assert_expected_type t1 Ty.field st2).2
      | some Ty.scalar, t2 => (assert_expected_type t2 Ty.scalar st2).2
      | t1, some Ty.scalar => (assert_expected_type t1 Ty.scalar st2).2
      | some (Ty.integerType _), t2 => assert_int_type t2 st2
      | t1, some (Ty.integerType _) => assert_int_type t1 st2
      | _, _ => st2
    let (t, st4) := assert_expected_type destination Ty.boolean st3
    (some t, st4)
  | .addWrapped | .subWrapped | .divWrapped | .mulWrapped =>
    let st0 := assert_int_type destination st
    let (t1, st1) := visit_expression ctx left destination st0
    let (t2, st2) := visit_expression ctx right destination st1
    (return_incorrect_type t1 t2 destination, st2)
  | .shl | .shlWrapped | .shr | .shrWrapped | .powWrapped =>
    let st0 := assert_int_type destination st
    let (t1, st1) := visit_expression ctx left destination st0
    let (t2, st2) := visit_expression ctx right none st1
    let st3 := assert_magnitude_type t2 st2
    (return_incorrect_type t1 t2 destination, st3)
termination_by (1 + sizeOf op + sizeOf left + sizeOf right, 0, 0)
decreasing_by
  all_goals simp_wf
  all_goals simp only [Prod.lex_def]
  all_goals simp_arith

/-- `visit_unary`: per-operator rules; negate saves the context flag,
sets it for the operand's check, restores it, then post-hoc validates
negatability of the synthesized type. -/
def visit_unary (ctx : Context) (op : UnaryOp) (receiver : Expr)
    (destination : Option Ty) (st : St) : Option Ty × St :=
  match op with
  | .abs =>
    let st0 := assert_signed_int_type destination st
    visit_expression ctx receiver destination st0
  | .absWrapped =>
    let st0 := assert_signed_int_type destination st
    visit_expression ctx receiver destination st0
  | .double =>
    let st0 := assert_field_group_type destination st
    visit_expression ctx receiver destination st0
  | .inverse =>
    let st0 := (assert_expected_type destination Ty.field st).2
    visit_expression ctx receiver destination st0
  | .negate =>
    let prior_negate_state := st.negate
    let st0 : St := ⟨true, st.diags⟩
    let (type_, st1) := visit_expression ctx receiver destination st0
    let st2 : St := ⟨prior_negate_state, st1.diags⟩
    match type_ with
    | some (Ty.integerType .i8) | some (Ty.integerType .i16) | some (Ty.integerType .i32)
    | some (Ty.integerType .i64) | some (Ty.integerType .i128)
    | some Ty.field | some Ty.group => (type_, st2)
    | some t => (type_, st2.emit (Diag.typeIsNotNegatable t))
    | none => (type_, st2)
  | .not =>
    let st0 := assert_bool_int_type destination st
    visit_expression ctx receiver destination st0
  | .square =>
    let st0 := (assert_expected_type destination Ty.field st).2
    visit_expression ctx receiver destination st0
  | .squareRoot =>
    let st0 := assert_field_scalar_type destination st
    visit_expression ctx receiver destination st0
termination_by (1 + sizeOf op + sizeOf receiver, 0, 0)
decreasing_by
  all_goals simp_wf
  all_goals simp only [Prod.lex_def]
  all_goals simp_arith

/-- `visit_ternary`: condition against an imposed Boolean expectation,
both branches against the outer expectation, results reconciled. -/
def visit_ternary (ctx : Context) (condition ifTrue ifFalse : Expr)
    (expected : Option Ty) (st : St) : Option Ty × St :=
  let (_, st0) := visit_expression ctx condition (some Ty.boolean) st
  let (t1, st1) := visit_expression ctx ifTrue expected st0
  let (t2, st2) := visit_expression ctx ifFalse expected st1
  (return_incorrect_type t1 t2 expected, st2)
termination_by (1 + sizeOf condition + sizeOf ifTrue + sizeOf ifFalse, 0, 0)
decreasing_by
  all_goals simp_wf
  all_goals simp only [Prod.lex_def]
  all_goals simp_arith

/-- `visit_call`: identifier callees resolve a function signature; the
return type is reconciled first, then arity is checked, then arguments
are checked against parameter types pairwise; any other callee shape is
re-checked directly. -/
def visit_call (ctx : Context) (function : Expr) (arguments : ExprList)
    (expected : Option Ty) (st : St) : Option Ty × St :=
  match function with
  | .identifier name =>
    match ctx.fns name with
    | some func =>
      let (ret, st1) := assert_expected_option func.output expected st
      let st2 :=
        if func.input.length ≠ arguments.length then
          st1.emit (Diag.incorrectNumArgsToCall func.input.length arguments.length)
        else st1
      let st3 := visit_call_arguments ctx func.input arguments st2
      (some ret, st3)
    | none => (none, st.emit (Diag.unknownSym "function" name))
  | f => visit_expression ctx f expected st
termination_by (1 + sizeOf function + sizeOf arguments, 0, 0)
decreasing_by
  all_goals simp_wf
  all_goals simp only [Prod.lex_def]
  all_goals simp_arith

/-- The argument loop of `visit_call`: parameters zipped with arguments,
each argument checked against its parameter's declared type. -/
def visit_call_arguments (ctx : Context) (params : List Ty) (args : ExprList) (st : St) : St :=
  match params, args with
  | ty :: ps, .cons a rest => visit_call_arguments ctx ps rest (visit_expression ctx a (some ty) st).2
  | _, _ => st
termination_by (sizeOf args, 0, 0)
decreasing_by
  all_goals simp_wf
  all_goals simp only [Prod.lex_def]
  all_goals simp_arith

/-- `visit_circuit_init`: resolve the declaration, reconcile its nominal
type, check the member count, then walk declared members in order. -/
def visit_circuit_init (ctx : Context) (name : String) (members : InitList)
    (additional : Option Ty) (st : St) : Option Ty × St :=
  match ctx.circuits name with
  | some circ =>
    let (ret, st1) := assert_expected_circuit circ.name additional st
    let st2 :=
      if circ.members.length ≠ members.length then
        st1.emit (Diag.incorrectNumCircuitMembers circ.members.length members.length)
      else st1
    let st3 := check_circuit_members ctx circ.members members st2
    (some ret, st3)
  | none => (none, st.emit (Diag.unknownSym "circuit or record" name))
termination_by (1 + sizeOf name + sizeOf members, 0, 0)
decreasing_by
  all_goals simp_wf
  all_goals simp only [Prod.lex_def]
  all_goals simp_arith

/-- The member loop of `visit_circuit_init`: for each declared member,
look up a supplied initializer by name; check its value expression
against the declared type when present, otherwise report the member as
missing. -/
def check_circuit_members (ctx : Context) (members : List (String × Ty))
    (inits : InitList) (st : St) : St :=
  match members with
  | [] => st
  | (name, ty) :: rest =>
    match hf : findInit inits name with
    | some (some e) => check_circuit_members ctx rest inits (visit_expression ctx e (some ty) st).2
    | some none => check_circuit_members ctx rest inits st
    | none =>
      check_circuit_members ctx rest inits
        (st.emit (Diag.unknownSym "circuit member variable" name))
termination_by (sizeOf inits, 0, members.length)
decreasing_by
  all_goals simp_wf
  all_goals try (have hsz := findInit_sizeOf _ _ _ hf)
  all_goals simp only [Prod.lex_def]
  all_goals simp_arith
  all_goals omega
end

/-! ## Delta forms of the state primitives

Each primitive applied to an explicit state appends a pure,
state-independent list of diagnostics; these normal forms drive the
frame lemmas below. -/

/-- Type returned by `assert_expected_option`. -/
def aeo_ty (actual : Ty) (expected : Option Ty) : Ty :=
  match expected with
  | some e => if actual = e then actual else e
  | none => actual

/-- Diagnostics appended by `assert_expected_option`. -/
def aeo_delta (actual : Ty) (expected : Option Ty) : List Diag :=
  match expected with
  | some e => if actual = e then [] else [Diag.typeShouldBe actual e]
  | none => []

/-- Diagnostics appended by `assert_expected_type`. -/
def aet_delta (actual : Option Ty) (expected : Ty) : List Diag :=
  match actual with
  | some a => if a = expected then [] else [Diag.typeShouldBe a expected]
  | none => []

/-- Diagnostics appended by `assert_type`. -/
def domain_delta (cond : Ty → Bool) (t : Option Ty) : List Diag :=
  match t with
  | some ty => if cond ty then [] else [Diag.notOneOfTypes ty]
  | none => []

/-- Diagnostics appended by `assert_eq_types`. -/
def aeq_delta (t1 t2 : Option Ty) : List Diag :=
  match t1, t2 with
  | some a, some b => if a = b then [] else [Diag.typesShouldBeEqual a b]
  | _, _ => []

/-- Diagnostics appended by `assert_one_of_types`. -/
def aoo_delta (t : Option Ty) (allowed : List Ty) : List Diag :=
  match t with
  | some a => if allowed.contains a then [] else [Diag.notOneOfTypes a]
  | none => []

@[simp]
theorem St.emit_mk (n : Bool) (d : List Diag) (x : Diag) :
    St.emit ⟨n, d⟩ x = ⟨n, d ++ [x]⟩ := rfl

@[simp]
theorem assert_expected_option_mk (a : Ty) (exp : Option Ty) (neg : Bool) (ds : List Diag) :
    assert_expected_option a exp ⟨neg, ds⟩ = (aeo_ty a exp, ⟨neg, ds ++ aeo_delta a exp⟩) := by
  cases exp <;> simp only [assert_expected_option, aeo_ty, aeo_delta] <;> try split
  all_goals simp

@[simp]
theorem assert_expected_type_mk (t : Option Ty) (e : Ty) (neg : Bool) (ds : List Diag) :
    assert_expected_type t e ⟨neg, ds⟩ = (e, ⟨neg, ds ++ aet_delta t e⟩) := by
  cases t <;> simp only [assert_expected_type, aet_delta] <;> try split
  all_goals simp

@[simp]
theorem assert_type_mk (cond : Ty → Bool) (t : Option Ty) (neg : Bool) (ds : List Diag) :
    assert_type cond t ⟨neg, ds⟩ = ⟨neg, ds ++ domain_delta cond t⟩ := by
  cases t <;> simp only [assert_type, domain_delta] <;> try split
  all_goals simp

@[simp]
theorem assert_eq_types_mk (t1 t2 : Option Ty) (neg : Bool) (ds : List Diag) :
    assert_eq_types t1 t2 ⟨neg, ds⟩ = ⟨neg, ds ++ aeq_delta t1 t2⟩ := by
  cases t1 <;> cases t2 <;> simp only [assert_eq_types, aeq_delta] <;> try split
  all_goals simp

@[simp]
theorem assert_one_of_types_mk (t : Option Ty) (allowed : List Ty) (neg : Bool) (ds : List Diag) :
    assert_one_of_types t allowed ⟨neg, ds⟩ = ⟨neg, ds ++ aoo_delta t allowed⟩ := by
  cases t <;> simp only [assert_one_of_types, aoo_delta] <;> try split
  all_goals simp

/-! ## Frame properties

Every visit leaves the negate flag as it found it and only appends to
the diagnostic sink; the appended diagnostics and the synthesized type
do not depend on the diagnostics already in the sink. -/

/-- Frame property of `visit_expression` at one expression. -/
def FrameE (ctx : Context) (e : Expr) : Prop :=
  ∀ expected neg, ∃ t δ, ∀ ds,
    visit_expression ctx e expected ⟨neg, ds⟩ = (t, ⟨neg, ds ++ δ⟩)

/-- Frame property of `visit_access` at one access expression. -/
def FrameA (ctx : Context) (a : AccessExpr) : Prop :=
  ∀ expected neg, ∃ t δ, ∀ ds,
    visit_access ctx a expected ⟨neg, ds⟩ = (t, ⟨neg, ds ++ δ⟩)

/-- Frame property of `visit_call_arguments` at one argument list. -/
def FrameL (ctx : Context) (l : ExprList) : Prop :=
  ∀ params neg, ∃ δ, ∀ ds,
    visit_call_arguments ctx params l ⟨neg, ds⟩ = ⟨neg, ds ++ δ⟩

/-- Frame property of `check_circuit_members` at one initializer list. -/
def FrameI (ctx : Context) (il : InitList) : Prop :=
  ∀ members neg, ∃ δ, ∀ ds,
    check_circuit_members ctx members il ⟨neg, ds⟩ = ⟨neg, ds ++ δ⟩

theorem visit_unary_frame (ctx : Context) (op : UnaryOp) (receiver : Expr)
    (hrec : FrameE ctx receiver) :
    ∀ destination neg, ∃ t δ, ∀ ds,
      visit_unary ctx op receiver destination ⟨neg, ds⟩ = (t, ⟨neg, ds ++ δ⟩) := by
  intro destination neg
  refine ⟨(visit_unary ctx op receiver destination ⟨neg, []⟩).1,
    (visit_unary ctx op receiver destination ⟨neg, []⟩).2.diags, fun ds => ?_⟩
  cases op
  case negate =>
    obtain ⟨t, δ, h⟩ := hrec destination true
    rcases t with _ | (_ | _ | _ | _ | _ | _ | i | n)
    all_goals
      simp [visit_unary, h, List.append_assoc]
    all_goals try (cases i <;> simp [List.append_assoc])
  all_goals
    obtain ⟨t, δ, h⟩ := hrec destination neg
    simp [visit_unary, h, assert_signed_int_type, assert_field_group_type,
      assert_bool_int_type, assert_field_scalar_type, List.append_assoc]

set_option maxHeartbeats 2000000 in
theorem visit_binary_frame (ctx : Context) (op : BinaryOp) (left right : Expr)
    (hl : FrameE ctx left) (hr : FrameE ctx right) :
    ∀ destination neg, ∃ t δ, ∀ ds,
      visit_binary ctx op left right destination ⟨neg, ds⟩ = (t, ⟨neg, ds ++ δ⟩) := by
  intro destination neg
  refine ⟨(visit_binary ctx op left right destination ⟨neg, []⟩).1,
    (visit_binary ctx op left right destination ⟨neg, []⟩).2.diags, fun ds => ?_⟩
  cases op
  case mul =>
    obtain ⟨t1, δ1, h1⟩ := hl none neg
    obtain ⟨t2, δ2, h2⟩ := hr none neg
    rcases t1 with _ | (_ | _ | _ | _ | _ | _ | i1 | n1) <;>
      rcases t2 with _ | (_ | _ | _ | _ | _ | _ | i2 | n2) <;>
      simp [visit_binary, h1, h2, assert_field_group_int_type, assert_field_int_type,
        return_incorrect_type, List.append_assoc]
  case pow =>
    obtain ⟨t1, δ1, h1⟩ := hl none neg
    obtain ⟨t2, δ2, h2⟩ := hr none neg
    rcases t1 with _ | (_ | _ | _ | _ | _ | _ | i1 | n1) <;>
      rcases t2 with _ | (_ | _ | _ | _ | _ | _ | i2 | n2) <;>
      simp [visit_binary, h1, h2, assert_field_int_type, assert_magnitude_type,
        List.append_assoc]
  case eq =>
    obtain ⟨t1, δ1, h1⟩ := hl none neg
    obtain ⟨t2, δ2, h2⟩ := hr none neg
    rcases t1 with _ | (_ | _ | _ | _ | _ | _ | i1 | n1) <;>
      rcases t2 with _ | (_ | _ | _ | _ | _ | _ | i2 | n2) <;>
      simp [visit_binary, h1, h2, assert_int_type, List.append_assoc]
  case neq =>
    obtain ⟨t1, δ1, h1⟩ := hl none neg
    obtain ⟨t2, δ2, h2⟩ := hr none neg
    rcases t1 with _ | (_ | _ | _ | _ | _ | _ | i1 | n1) <;>
      rcases t2 with _ | (_ | _ | _ | _ | _ | _ | i2 | n2) <;>
      simp [visit_binary, h1, h2, assert_int_type, List.append_assoc]
  case lt =>
    obtain ⟨t1, δ1, h1⟩ := hl none neg
    obtain ⟨t2, δ2, h2⟩ := hr none neg
    rcases t1 with _ | (_ | _ | _ | _ | _ | _ | i1 | n1) <;>
      rcases t2 with _ | (_ | _ | _ | _ | _ | _ | i2 | n2) <;>
      simp [visit_binary, h1, h2, assert_int_type, List.append_assoc]
  case gt =>
    obtain ⟨t1, δ1, h1⟩ := hl none neg
    obtain ⟨t2, δ2, h2⟩ := hr none neg
    rcases t1 with _ | (_ | _ | _ | _ | _ | _ | i1 | n1) <;>
      rcases t2 with _ | (_ | _ | _ | _ | _ | _ | i2 | n2) <;>
      simp [visit_binary, h1, h2, assert_int_type, List.append_assoc]
  case lte =>
    obtain ⟨t1, δ1, h1⟩ := hl none neg
    obtain ⟨t2, δ2, h2⟩ := hr none neg
    rcases t1 with _ | (_ | _ | _ | _ | _ | _ | i1 | n1) <;>
      rcases t2 with _ | (_ | _ | _ | _ | _ | _ | i2 | n2) <;>
      simp [visit_binary, h1, h2, assert_int_type, List.append_assoc]
  case gte =>
    obtain ⟨t1, δ1, h1⟩ := hl none neg
    obtain ⟨t2, δ2, h2⟩ := hr none neg
    rcases t1 with _ | (_ | _ | _ | _ | _ | _ | i1 | n1) <;>
      rcases t2 with _ | (_ | _ | _ | _ | _ | _ | i2 | n2) <;>
      simp [visit_binary, h1, h2, assert_int_type, List.append_assoc]
  case shl =>
    obtain ⟨t1, δ1, h1⟩ := hl destination neg
    obtain ⟨t2, δ2, h2⟩ := hr none neg
    simp [visit_binary, h1, h2, assert_int_type, assert_magnitude_type, List.append_assoc]
  case shlWrapped =>
    obtain ⟨t1, δ1, h1⟩ := hl destination neg
    obtain ⟨t2, δ2, h2⟩ := hr none neg
    simp [visit_binary, h1, h2, assert_int_type, assert_magnitude_type, List.append_assoc]
  case shr =>
    obtain ⟨t1, δ1, h1⟩ := hl destination neg
    obtain ⟨t2, δ2, h2⟩ := hr none neg
    simp [visit_binary, h1, h2, assert_int_type, assert_magnitude_type, List.append_assoc]
  case shrWrapped =>
    obtain ⟨t1, δ1, h1⟩ := hl destination neg
    obtain ⟨t2, δ2, h2⟩ := hr none neg
    simp [visit_binary, h1, h2, assert_int_type, assert_magnitude_type, List.append_assoc]
  case powWrapped =>
    obtain ⟨t1, δ1, h1⟩ := hl destination neg
    obtain ⟨t2, δ2, h2⟩ := hr none neg
    simp [visit_binary, h1, h2, assert_int_type, assert_magnitude_type, List.append_assoc]
  all_goals
    obtain ⟨t1, δ1, h1⟩ := hl destination neg
    obtain ⟨t2, δ2, h2⟩ := hr destination neg
    simp [visit_binary, h1, h2, assert_bool_int_type, assert_field_group_scalar_int_type,
      assert_field_group_int_type, assert_field_int_type, assert_int_type,
      List.append_assoc]

theorem visit_ternary_frame (ctx : Context) (c a b : Expr)
    (hc : FrameE ctx c) (ha : FrameE ctx a) (hb : FrameE ctx b) :
    ∀ expected neg, ∃ t δ, ∀ ds,
      visit_ternary ctx c a b expected ⟨neg, ds⟩ = (t, ⟨neg, ds ++ δ⟩) := by
  intro expected neg
  obtain ⟨tc, δc, h0⟩ := hc (some Ty.boolean) neg
  obtain ⟨t1, δ1, h1⟩ := ha expected neg
  obtain ⟨t2, δ2, h2⟩ := hb expected neg
  refine ⟨(visit_ternary ctx c a b expected ⟨neg, []⟩).1,
    (visit_ternary ctx c a b expected ⟨neg, []⟩).2.diags, fun ds => ?_⟩
  simp [visit_ternary, h0, h1, h2, List.append_assoc]

theorem visit_call_frame (ctx : Context) (f : Expr) (args : ExprList)
    (hf : FrameE ctx f) (hargs : FrameL ctx args) :
    ∀ expected neg, ∃ t δ, ∀ ds,
      visit_call ctx f args expected ⟨neg, ds⟩ = (t, ⟨neg, ds ++ δ⟩) := by
  intro expected neg
  refine ⟨(visit_call ctx f args expected ⟨neg, []⟩).1,
    (visit_call ctx f args expected ⟨neg, []⟩).2.diags, fun ds => ?_⟩
  cases f
  case identifier name =>
    rcases hfn : ctx.fns name with _ | func
    · simp [visit_call, hfn]
    · obtain ⟨δa, ha⟩ := hargs func.input neg
      by_cases harr : func.input.length = args.length <;>
        simp [visit_call, hfn, harr, ha, List.append_assoc]
  all_goals
    obtain ⟨t, δ, h⟩ := hf expected neg
    simp [visit_call, h, List.append_assoc]

theorem visit_circuit_init_frame (ctx : Context) (name : String) (members : InitList)
    (hI : FrameI ctx members) :
    ∀ additional neg, ∃ t δ, ∀ ds,
      visit_circuit_init ctx name members additional ⟨neg, ds⟩ = (t, ⟨neg, ds ++ δ⟩) := by
  intro additional neg
  refine ⟨(visit_circuit_init ctx name members additional ⟨neg, []⟩).1,
    (visit_circuit_init ctx name members additional ⟨neg, []⟩).2.diags, fun ds => ?_⟩
  rcases hc : ctx.circuits name with _ | circ
  · simp [visit_circuit_init, hc]
  · obtain ⟨δm, hm⟩ := hI circ.members neg
    by_cases hlen : circ.members.length = members.length <;>
      simp [visit_circuit_init, hc, hlen, hm, assert_expected_circuit, List.append_assoc]

theorem visit_access_frame (ctx : Context) (input : AccessExpr)
    (h : ∀ e : Expr, sizeOf e < sizeOf input → FrameE ctx e) :
    ∀ expected neg, ∃ t δ, ∀ ds,
      visit_access ctx input expected ⟨neg, ds⟩ = (t, ⟨neg, ds ++ δ⟩) := by
  intro expected neg
  refine ⟨(visit_access ctx input expected ⟨neg, []⟩).1,
    (visit_access ctx input expected ⟨neg, []⟩).2.diags, fun ds => ?_⟩
  cases input
  case member inner nm => simp [visit_access]
  case tupleAccess inner idx => simp [visit_access]
  case associatedFunction ty nm args =>
    rcases hcore : ctx.core ty nm with _ | ci
    · simp [visit_access, hcore]
    · cases args with
      | nil =>
        by_cases harr : ci.numArgs = ExprList.length .nil <;>
          simp [visit_access, hcore, harr, List.append_assoc]
      | cons a1 rest =>
        have f1 := h a1 (by simp_arith)
        obtain ⟨t1, δ1, h1⟩ := f1 none neg
        cases rest with
        | nil =>
          by_cases harr : ci.numArgs = ExprList.length (.cons a1 .nil) <;>
            simp [visit_access, hcore, harr, h1, List.append_assoc]
        | cons a2 rest2 =>
          have f2 := h a2 (by simp_arith)
          obtain ⟨t2, δ2, h2⟩ := f2 none neg
          by_cases harr : ci.numArgs = ExprList.length (.cons a1 (.cons a2 rest2)) <;>
            simp [visit_access, hcore, harr, h1, h2, List.append_assoc]

theorem visit_identifier_frame (ctx : Context) (name : String) :
    ∀ expected neg, ∃ t δ, ∀ ds,
      visit_identifier ctx name expected ⟨neg, ds⟩ = (t, ⟨neg, ds ++ δ⟩) := by
  intro expected neg
  refine ⟨(visit_identifier ctx name expected ⟨neg, []⟩).1,
    (visit_identifier ctx name expected ⟨neg, []⟩).2.diags, fun ds => ?_⟩
  rcases h1 : ctx.circuits name with _ | circ
  · rcases h2 : ctx.vars name with _ | ty <;> simp [visit_identifier, h1, h2]
  · simp [visit_identifier, h1]

theorem visit_literal_frame (l : Literal) :
    ∀ expected neg, ∃ t δ, ∀ ds,
      visit_literal l expected ⟨neg, ds⟩ = (t, ⟨neg, ds ++ δ⟩) := by
  intro expected neg
  refine ⟨(visit_literal l expected ⟨neg, []⟩).1,
    (visit_literal l expected ⟨neg, []⟩).2.diags, fun ds => ?_⟩
  cases l <;> simp [visit_literal, List.append_assoc]

set_option maxHeartbeats 2000000 in
theorem visit_frame_master (ctx : Context) : ∀ n : Nat,
    (∀ e : Expr, sizeOf e ≤ n → FrameE ctx e) ∧
    (∀ a : AccessExpr, sizeOf a ≤ n → FrameA ctx a) ∧
    (∀ l : ExprList, sizeOf l ≤ n → FrameL ctx l) ∧
    (∀ il : InitList, sizeOf il ≤ n → FrameI ctx il) := by
  intro n
  induction n using Nat.strong_induction_on with
  | _ n IH =>
    have IHE : ∀ e : Expr, sizeOf e < n → FrameE ctx e :=
      fun e he => (IH (sizeOf e) he).1 e le_rfl
    have IHA : ∀ a : AccessExpr, sizeOf a < n → FrameA ctx a :=
      fun a ha => (IH (sizeOf a) ha).2.1 a le_rfl
    have IHL : ∀ l : ExprList, sizeOf l < n → FrameL ctx l :=
      fun l hl => (IH (sizeOf l) hl).2.2.1 l le_rfl
    have IHI : ∀ il : InitList, sizeOf il < n → FrameI ctx il :=
      fun il hil => (IH (sizeOf il) hil).2.2.2 il le_rfl
    refine ⟨?_, ?_, ?_, ?_⟩
    · intro e he
      cases e
      case access a =>
        intro expected neg
        obtain ⟨t, δ, h⟩ := IHA a (by simp_arith at he; omega) expected neg
        exact ⟨t, δ, fun ds => by simp [visit_expression, h]⟩
      case identifier name =>
        intro expected neg
        obtain ⟨t, δ, h⟩ := visit_identifier_frame ctx name expected neg
        exact ⟨t, δ, fun ds => by simp [visit_expression, h]⟩
      case literal l =>
        intro expected neg
        obtain ⟨t, δ, h⟩ := visit_literal_frame l expected neg
        exact ⟨t, δ, fun ds => by simp [visit_expression, h]⟩
      case binary op l r =>
        have hl := IHE l (by simp_arith at he; omega)
        have hr := IHE r (by simp_arith at he; omega)
        intro expected neg
        obtain ⟨t, δ, h⟩ := visit_binary_frame ctx op l r hl hr expected neg
        exact ⟨t, δ, fun ds => by simp [visit_expression, h]⟩
      case call f args =>
        have hf := IHE f (by simp_arith at he; omega)
        have hargs := IHL args (by simp_arith at he; omega)
        intro expected neg
        obtain ⟨t, δ, h⟩ := visit_call_frame ctx f args hf hargs expected neg
        exact ⟨t, δ, fun ds => by simp [visit_expression, h]⟩
      case circuitInit name members =>
        have hI := IHI members (by simp_arith at he; omega)
        intro expected neg
        obtain ⟨t, δ, h⟩ := visit_circuit_init_frame ctx name members hI expected neg
        exact ⟨t, δ, fun ds => by simp [visit_expression, h]⟩
      case errExpr =>
        intro expected neg
        exact ⟨none, [], fun ds => by simp [visit_expression]⟩
      case ternary c a b =>
        have hc := IHE c (by simp_arith at he; omega)
        have ha := IHE a (by simp_arith at he; omega)
        have hb := IHE b (by simp_arith at he; omega)
        intro expected neg
        obtain ⟨t, δ, h⟩ := visit_ternary_frame ctx c a b hc ha hb expected neg
        exact ⟨t, δ, fun ds => by simp [visit_expression, h]⟩
      case unary op r =>
        have hrec := IHE r (by simp_arith at he; omega)
        intro expected neg
        obtain ⟨t, δ, h⟩ := visit_unary_frame ctx op r hrec expected neg
        exact ⟨t, δ, fun ds => by simp [visit_expression, h]⟩
    · intro a ha
      exact visit_access_frame ctx a (fun e hsz => IHE e (by omega))
    · intro l hl
      cases l with
      | nil =>
        intro params neg
        exact ⟨[], fun ds => by cases params <;> simp [visit_call_arguments]⟩
      | cons a rest =>
        have fa := IHE a (by simp_arith at hl; omega)
        have frest := IHL rest (by simp_arith at hl; omega)
        intro params neg
        cases params with
        | nil => exact ⟨[], fun ds => by simp [visit_call_arguments]⟩
        | cons ty ps =>
          obtain ⟨t1, δ1, h1⟩ := fa (some ty) neg
          obtain ⟨δr, hr2⟩ := frest ps neg
          exact ⟨δ1 ++ δr, fun ds => by
            simp [visit_call_arguments, h1, hr2, List.append_assoc]⟩
    · intro il hil
      intro members neg
      induction members with
      | nil => exact ⟨[], fun ds => by simp [check_circuit_members]⟩
      | cons m rest ihm =>
        obtain ⟨δr, hr2⟩ := ihm
        obtain ⟨mn, mt⟩ := m
        rcases hfi : findInit il mn with _ | oe
        · exact ⟨[Diag.unknownSym "circuit member variable" mn] ++ δr, fun ds => by
            simp only [check_circuit_members]
            split <;> simp_all [List.append_assoc]⟩
        · rcases oe with _ | e
          · exact ⟨δr, fun ds => by
              simp only [check_circuit_members]
              split <;> simp_all [List.append_assoc]⟩
          · have hse : sizeOf e < sizeOf il := findInit_sizeOf il mn e hfi
            obtain ⟨te, δe, he2⟩ := IHE e (by omega) (some mt) neg
            exact ⟨δe ++ δr, fun ds => by
              simp only [check_circuit_members]
              split <;> simp_all [List.append_assoc]⟩

/-- Frame lemma: every visit restores the negate flag, appends its
diagnostics, and its result does not depend on diagnostics already in
the sink. -/
theorem visit_expression_frame (ctx : Context) (e : Expr) : FrameE ctx e :=
  (visit_frame_master ctx (sizeOf e)).1 e le_rfl

/-! ## Observable deltas of a visit -/

/-- Type synthesized for an expression, starting from an empty sink. -/
def exprTy (ctx : Context) (e : Expr) (expected : Option Ty) (negate : Bool) : Option Ty :=
  (visit_expression ctx e expected ⟨ negate, []⟩).1

/-- Diagnostics appended while checking one expression. -/
def exprDelta (ctx : Context) (e : Expr) (expected : Option Ty) (negate : Bool) : List Diag :=
  (visit_expression ctx e expected ⟨ negate, []⟩).2.diags

/-- Normal form of a visit from an arbitrary state: the negate flag is
preserved and the visit's own diagnostics are appended to the sink. -/
theorem visit_expression_delta (ctx : Context) (e : Expr) (expected : Option Ty)
    (neg : Bool) (ds : List Diag) :
    visit_expression ctx e expected ⟨neg, ds⟩ =
      (exprTy ctx e expected neg, ⟨neg, ds ++ exprDelta ctx e expected neg⟩) := by
  obtain ⟨t, δ, h⟩ := visit_expression_frame ctx e expected neg
  have h0 := h []
  have hds := h ds
  simp only [List.nil_append] at h0
  simp [exprTy, exprDelta, h0, hds]

/-- Diagnostics contributed by one declared member inside
`visit_circuit_init`'s member loop. -/
def memberDelta (ctx : Context) (inits : InitList) (negate : Bool) (m : String × Ty) :
    List Diag :=
  match findInit inits m.1 with
  | some (some e) => exprDelta ctx e (some m.2) negate
  | some none => []
  | none => [Diag.unknownSym "circuit member variable" m.1]

/-- The member loop appends exactly the per-member deltas, in declared
member order. -/
theorem check_circuit_members_delta (ctx : Context) (members : List (String × Ty))
    (inits : InitList) (neg : Bool) (ds : List Diag) :
    check_circuit_members ctx members inits ⟨neg, ds⟩ =
      ⟨neg, ds ++ (members.map (memberDelta ctx inits neg)).flatten⟩ := by
  induction members generalizing ds with
  | nil => simp [check_circuit_members]
  | cons m rest ih =>
    obtain ⟨mn, mt⟩ := m
    rcases hfi : findInit inits mn with _ | oe
    · simp only [check_circuit_members]
      split <;> simp_all [memberDelta, List.append_assoc]
    · rcases oe with _ | e
      · simp only [check_circuit_members]
        split <;> simp_all [memberDelta, List.append_assoc]
      · simp only [check_circuit_members]
        split <;> simp_all [memberDelta, visit_expression_delta, List.append_assoc]

/-- The call-argument loop appends exactly the per-argument deltas of the
parameter-argument zip, in order. -/
theorem visit_call_arguments_delta (ctx : Context) (params : List Ty) (args : ExprList)
    (neg : Bool) (ds : List Diag) :
    visit_call_arguments ctx params args ⟨neg, ds⟩ =
      ⟨neg, ds ++ ((params.zip args.toList).map
        (fun p => exprDelta ctx p.2 (some p.1) neg)).flatten⟩ := by
  induction params generalizing args ds with
  | nil => cases args <;> simp [visit_call_arguments, ExprList.toList]
  | cons ty ps ih =>
    cases args with
    | nil => simp [visit_call_arguments, ExprList.toList]
    | cons a rest =>
      simp [visit_call_arguments, ExprList.toList, visit_expression_delta, ih,
        List.append_assoc]

/-! ## Claim-side auxiliary definitions -/

/-- Test for the invalid-integer-literal diagnostic kind. -/
def Diag.isInvalidInt : Diag → Bool
  | .invalidIntValue _ _ => true
  | _ => false

/-- Integer value denoted by an optionally signed decimal text, following
claim C3's wording ("the decimal text, prefixed with a minus sign..."). -/
def decTextVal (s : String) : Option Int :=
  match s.data with
  | '-' :: rest => (decDigits rest).map (fun n => -(n : Int))
  | '+' :: rest => (decDigits rest).map (fun n => (n : Int))
  | cs => (decDigits cs).map (fun n => (n : Int))

/-- Lower bound of an integer type's range. -/
def tyLo (ty : IntegerType) : Int :=
  if ty.isSigned then -((2 : Int) ^ (ty.bits - 1)) else 0

/-- Upper bound of an integer type's range. -/
def tyHi (ty : IntegerType) : Int :=
  if ty.isSigned then (2 : Int) ^ (ty.bits - 1) - 1 else (2 : Int) ^ ty.bits - 1

/-- Claim C3's representability predicate: the text denotes an integer
lying in the exact width/signedness range. -/
def representableIn (ty : IntegerType) (s : String) : Bool :=
  match decTextVal s with
  | some n => decide (tyLo ty ≤ n) && decide (n ≤ tyHi ty)
  | none => false

/-- Symbol table for the shift evaluation: `x : u64`, `a : u8`. -/
def ctx1 : Context :=
  ⟨fun _ => none,
   fun x => if x = "x" then some (Ty.integerType .u64)
     else if x = "a" then some (Ty.integerType .u8) else none,
   fun _ => none, fun _ _ => none⟩

/-- Symbol table with a group variable `g` and a scalar variable `s`. -/
def ctx5 : Context :=
  ⟨fun _ => none,
   fun x => if x = "g" then some Ty.group
     else if x = "s" then some Ty.scalar else none,
   fun _ => none, fun _ _ => none⟩

/-- Symbol table declaring circuit `R` with members `a : field`,
`b : boolean`. -/
def ctx6 : Context :=
  ⟨fun n => if n = "R" then some ⟨"R", [("a", Ty.field), ("b", Ty.boolean)]⟩ else none,
   fun _ => none, fun _ => none, fun _ _ => none⟩

/-- Symbol table declaring function `f : (boolean, field) → boolean`. -/
def ctx7 : Context :=
  ⟨fun _ => none, fun _ => none,
   fun n => if n = "f" then some ⟨[Ty.boolean, Ty.field], Ty.boolean⟩ else none,
   fun _ _ => none⟩

/-! ## Claims -/

/-- C1: evaluation of a shift whose destination and left operand are the
same integer type (`u64`) and whose right operand is a magnitude type
(`u8`): the synthesized result is the right operand's type `u8`, not the
destination's `u64` — `return_incorrect_type` receives the magnitude-typed
`t2` and, as the first type equals the expected type, returns `t2`. -/
theorem shl_result_type_eval :
    visit_binary ctx1 .shl (.identifier "x") (.identifier "a")
        (some (Ty.integerType .u64)) ⟨false, []⟩
      = (some (Ty.integerType .u8), ⟨false, []⟩) ∧
    Ty.integerType .u8 ≠ Ty.integerType .u64 := by
  constructor
  · simp [visit_binary, visit_expression, visit_identifier, ctx1, assert_expected_option,
      assert_int_type, assert_magnitude_type, assert_type, return_incorrect_type,
      Ty.isInt, Ty.isMagnitude]
  · decide

/-- C2 counterexample: with both types known and unequal and no expected
type supplied, `return_incorrect_type` returns the first type, not the
second as the claim states. -/
theorem return_incorrect_type_no_expected_cex :
    return_incorrect_type (some Ty.boolean) (some Ty.field) none = some Ty.boolean ∧
    return_incorrect_type (some Ty.boolean) (some Ty.field) none ≠ some Ty.field := by
  constructor <;> decide

/-- C2 (amended): whenever both input types are known and unequal, the
result is the first type `t1` if an expected type `E` is supplied and
`t1 ≠ E`; it is `t2` if an expected type is supplied and `t1 = E`; and it
is `t1` (not `t2`) when no expected type is supplied. -/
theorem return_incorrect_type_spec (t1 t2 : Ty) (expected : Option Ty) (h : t1 ≠ t2) :
    return_incorrect_type (some t1) (some t2) expected =
      some (match expected with
            | some e => if t1 = e then t2 else t1
            | none => t1) := by
  cases expected <;> simp [return_incorrect_type, h] <;> split <;> simp_all

theorem return_incorrect_type_spec_witness :
    Ty.boolean ≠ Ty.field ∧
    return_incorrect_type (some Ty.boolean) (some Ty.field) (some Ty.boolean)
      = some Ty.field := by
  refine ⟨by decide, ?_⟩
  rw [return_incorrect_type_spec Ty.boolean Ty.field (some Ty.boolean) (by decide)]
  decide

/-- C4: for every expression, every optional expected type and every
initial state, the checker's visit returns with the negate context flag
equal to its initial value. -/
theorem negate_flag_restored (ctx : Context) (e : Expr) (expected : Option Ty) (st : St) :
    ((visit_expression ctx e expected st).2).negate = st.negate := by
  obtain ⟨neg, ds⟩ := st
  simp [visit_expression_delta]

/-- C5: a multiplication whose operands synthesize Group and Scalar, in
either order, under an unconstrained destination, synthesizes Group and
emits no diagnostic. -/
theorem mul_group_scalar (ctx : Context) (el er : Expr)
    (hg : ∀ s : St, visit_expression ctx el none s = (some Ty.group, s))
    (hs : ∀ s : St, visit_expression ctx er none s = (some Ty.scalar, s)) (s : St) :
    visit_binary ctx .mul el er none s = (some Ty.group, s) ∧
    visit_binary ctx .mul er el none s = (some Ty.group, s) := by
  constructor <;>
    simp [visit_binary, hg, hs, assert_field_group_int_type, assert_type,
      assert_expected_type]

theorem mul_group_scalar_witness :
    visit_binary ctx5 .mul (.identifier "g") (.identifier "s") none ⟨false, []⟩
        = (some Ty.group, ⟨false, []⟩) ∧
    visit_binary ctx5 .mul (.identifier "s") (.identifier "g") none ⟨false, []⟩
        = (some Ty.group, ⟨false, []⟩) :=
  mul_group_scalar ctx5 (.identifier "g") (.identifier "s")
    (fun s => by
      obtain ⟨neg, ds⟩ := s
      simp [visit_expression, visit_identifier, ctx5, assert_expected_option])
    (fun s => by
      obtain ⟨neg, ds⟩ := s
      simp [visit_expression, visit_identifier, ctx5, assert_expected_option])
    ⟨false, []⟩

/-- C8: ternary checking checks the condition against an imposed Boolean
expectation, both branches against the outer expected type, and
reconciles the branch results through `return_incorrect_type`. -/
theorem visit_ternary_spec (ctx : Context) (c a b : Expr) (expected : Option Ty) (st : St) :
    visit_ternary ctx c a b expected st =
      (let st0 := (visit_expression ctx c (some Ty.boolean) st).2
       let r1 := visit_expression ctx a expected st0
       let r2 := visit_expression ctx b expected r1.2
       (return_incorrect_type r1.1 r2.1 expected, r2.2)) := by
  simp [visit_ternary]

/-- C9: an integer literal whose text fails to parse at the declared
width/signedness still yields the declared integer type reconciled
against the expectation; the parse failure only adds the
invalid-integer-literal diagnostic. -/
theorem invalid_literal_still_types (ty : IntegerType) (text : String)
    (expected : Option Ty) (neg : Bool) (ds : List Diag)
    (h : checkIntLiteral neg ty text ≠ []) :
    visit_literal (.integerLit ty text) expected ⟨neg, ds⟩ =
      (some (aeo_ty (Ty.integerType ty) expected),
       ⟨neg, ds ++ checkIntLiteral neg ty text
          ++ aeo_delta (Ty.integerType ty) expected⟩) := by
  simp [visit_literal, List.append_assoc]

theorem invalid_literal_still_types_witness :
    checkIntLiteral false .u8 "256" ≠ [] ∧
    visit_literal (.integerLit .u8 "256") none ⟨false, []⟩ =
      (some (Ty.integerType .u8), ⟨false, [Diag.invalidIntValue "256" "u8"]⟩) := by
  refine ⟨by decide, ?_⟩
  have h := invalid_literal_still_types .u8 "256" none false [] (by decide)
  exact h.trans (by decide)

/-- C10: a member access or a tuple access yields no type and appends no
diagnostic, for any expected type and any state. -/
theorem member_tuple_access_skipped (ctx : Context) (inner : Expr) (nm : String)
    (idx : Nat) (expected : Option Ty) (st : St) :
    visit_access ctx (.member inner nm) expected st = (none, st) ∧
    visit_access ctx (.tupleAccess inner idx) expected st = (none, st) := by
  constructor <;> simp [visit_access]

/-- C6: for a circuit initializer whose named declaration resolves, the
result is the declaration's nominal type reconciled against the
expectation, and the sink receives: the reconciliation delta, the
member-count diagnostic when counts differ, then — per declared member in
declaration order — either the diagnostics of checking the supplied
initializer's value against the member's declared type, or exactly one
unknown-symbol("circuit member variable") diagnostic naming the missing
member. -/
theorem circuit_init_members_spec (ctx : Context) (name : String) (inits : InitList)
    (expected : Option Ty) (neg : Bool) (ds : List Diag) (circ : Circuit)
    (h : ctx.circuits name = some circ) :
    visit_circuit_init ctx name inits expected ⟨neg, ds⟩ =
      (some (aeo_ty (Ty.identifier circ.name) expected),
       ⟨neg, ds ++ aeo_delta (Ty.identifier circ.name) expected
          ++ (if circ.members.length = inits.length then []
              else [Diag.incorrectNumCircuitMembers circ.members.length inits.length])
          ++ (circ.members.map (memberDelta ctx inits neg)).flatten⟩) := by
  by_cases hlen : circ.members.length = inits.length <;>
    simp [visit_circuit_init, h, hlen, assert_expected_circuit,
      check_circuit_members_delta, List.append_assoc]

theorem circuit_init_members_spec_witness :
    ctx6.circuits "R" = some ⟨"R", [("a", Ty.field), ("b", Ty.boolean)]⟩ ∧
    visit_circuit_init ctx6 "R" (.consSome "a" (.literal (.fieldLit "1")) .nil)
        none ⟨false, []⟩ =
      (some (Ty.identifier "R"),
       ⟨false, [Diag.incorrectNumCircuitMembers 2 1,
                Diag.unknownSym "circuit member variable" "b"]⟩) := by
  refine ⟨by decide, ?_⟩
  have h := circuit_init_members_spec ctx6 "R"
    (.consSome "a" (.literal (.fieldLit "1")) .nil) none false []
    ⟨"R", [("a", Ty.field), ("b", Ty.boolean)]⟩ (by decide)
  refine h.trans ?_
  simp [memberDelta, findInit, exprDelta, visit_expression, visit_literal, aeo_ty,
    aeo_delta, InitList.length]

/-- C7: a call through an identifier resolving to a declared function
with a parameter/argument count mismatch returns the declared output
reconciled against the expectation, and the sink receives: the
reconciliation delta, exactly one incorrect-number-of-arguments
diagnostic, then the diagnostics of checking each argument paired by
position with a declared parameter (up to the shorter list) against that
parameter's type. -/
theorem call_arity_mismatch_spec (ctx : Context) (fname : String) (args : ExprList)
    (expected : Option Ty) (neg : Bool) (ds : List Diag) (func : FunctionDecl)
    (h : ctx.fns fname = some func)
    (hlen : func.input.length ≠ args.length) :
    visit_call ctx (.identifier fname) args expected ⟨neg, ds⟩ =
      (some (aeo_ty func.output expected),
       ⟨neg, ds ++ aeo_delta func.output expected
          ++ [Diag.incorrectNumArgsToCall func.input.length args.length]
          ++ ((func.input.zip args.toList).map
              (fun p => exprDelta ctx p.2 (some p.1) neg)).flatten⟩) := by
  simp [visit_call, h, hlen, visit_call_arguments_delta, List.append_assoc]

theorem call_arity_mismatch_spec_witness :
    ctx7.fns "f" = some ⟨[Ty.boolean, Ty.field], Ty.boolean⟩ ∧
    (2 : Nat) ≠ 3 ∧
    visit_call ctx7 (.identifier "f")
        (.cons (.literal (.booleanLit true))
          (.cons (.literal (.fieldLit "1"))
            (.cons (.literal (.booleanLit false)) .nil))) none ⟨false, []⟩ =
      (some Ty.boolean, ⟨false, [Diag.incorrectNumArgsToCall 2 3]⟩) := by
  refine ⟨by decide, by decide, ?_⟩
  have h := call_arity_mismatch_spec ctx7 "f"
    (.cons (.literal (.booleanLit true))
      (.cons (.literal (.fieldLit "1"))
        (.cons (.literal (.booleanLit false)) .nil))) none false []
    ⟨[Ty.boolean, Ty.field], Ty.boolean⟩ (by decide) (by decide)
  refine h.trans ?_
  simp [exprDelta, visit_expression, visit_literal, aeo_ty, aeo_delta,
    ExprList.toList, ExprList.length]

/-! ## Decimal parsing lemmas for claim C3 -/

theorem isDigit_ne_signs (c : Char) (h : isDigit c = true) : c ≠ '-' ∧ c ≠ '+' := by
  constructor <;> rintro rfl <;> simp [isDigit] at h

theorem decDigits_digits (cs : List Char) (h1 : cs ≠ []) (h2 : cs.all isDigit = true) :
    decDigits cs = some (digitsVal cs) := by
  simp [decDigits, h1, h2]

theorem rustParseSigned_digits (text : String) (h1 : text.data ≠ [])
    (h2 : text.data.all isDigit = true) (bits : Nat) :
    rustParseSigned bits text = decide (digitsVal text.data + 1 ≤ 2 ^ (bits - 1)) := by
  rcases htext : text.data with _ | ⟨c, rest⟩
  · exact absurd htext h1
  · rw [htext] at h2
    simp only [List.all_cons, Bool.and_eq_true] at h2
    obtain ⟨hcm, hcp⟩ := isDigit_ne_signs c h2.1
    simp only [rustParseSigned, htext]
    split
    · rename_i heq
      rw [List.cons.injEq] at heq
      exact absurd heq.1 hcm
    · rename_i heq
      rw [List.cons.injEq] at heq
      exact absurd heq.1 hcp
    · rw [decDigits_digits (c :: rest) (by simp) (by simp [List.all_cons, h2.1, h2.2])]
      simp [Option.elim]

theorem rustParseSigned_negated (text : String) (h1 : text.data ≠ [])
    (h2 : text.data.all isDigit = true) (bits : Nat) :
    rustParseSigned bits ("-" ++ text) = decide (digitsVal text.data ≤ 2 ^ (bits - 1)) := by
  have hd : ("-" ++ text).data = '-' :: text.data := by simp [String.data_append]
  simp only [rustParseSigned, hd]
  rw [decDigits_digits text.data h1 h2]
  simp [Option.elim]

theorem rustParseUnsigned_digits (text : String) (h1 : text.data ≠ [])
    (h2 : text.data.all isDigit = true) (bits : Nat) :
    rustParseUnsigned bits text = decide (digitsVal text.data + 1 ≤ 2 ^ bits) := by
  rcases htext : text.data with _ | ⟨c, rest⟩
  · exact absurd htext h1
  · rw [htext] at h2
    simp only [List.all_cons, Bool.and_eq_true] at h2
    obtain ⟨hcm, hcp⟩ := isDigit_ne_signs c h2.1
    simp only [rustParseUnsigned, htext]
    split
    · rename_i heq
      rw [List.cons.injEq] at heq
      exact absurd heq.1 hcp
    · rw [decDigits_digits (c :: rest) (by simp) (by simp [List.all_cons, h2.1, h2.2])]
      simp [Option.elim]

theorem decTextVal_digits (text : String) (h1 : text.data ≠ [])
    (h2 : text.data.all isDigit = true) :
    decTextVal text = some ((digitsVal text.data : Int)) := by
  rcases htext : text.data with _ | ⟨c, rest⟩
  · exact absurd htext h1
  · rw [htext] at h2
    simp only [List.all_cons, Bool.and_eq_true] at h2
    obtain ⟨hcm, hcp⟩ := isDigit_ne_signs c h2.1
    simp only [decTextVal, htext]
    split
    · rename_i heq
      rw [List.cons.injEq] at heq
      exact absurd heq.1 hcm
    · rename_i heq
      rw [List.cons.injEq] at heq
      exact absurd heq.1 hcp
    · rw [decDigits_digits (c :: rest) (by simp) (by simp [List.all_cons, h2.1, h2.2])]
      simp

theorem decTextVal_negated (text : String) (h1 : text.data ≠ [])
    (h2 : text.data.all isDigit = true) :
    decTextVal ("-" ++ text) = some (-(digitsVal text.data : Int)) := by
  have hd : ("-" ++ text).data = '-' :: text.data := by simp [String.data_append]
  simp only [decTextVal, hd]
  rw [decDigits_digits text.data h1 h2]
  simp

theorem all_if_invalid (b : Bool) (txt tn : String) :
    ((if b = true then ([] : List Diag) else [Diag.invalidIntValue txt tn]).all
      (fun d => !d.isInvalidInt) = true) ↔ b = true := by
  cases b <;> simp [Diag.isInvalidInt]

theorem aeo_delta_no_invalid (a : Ty) (exp : Option Ty) :
    (aeo_delta a exp).all (fun d => !d.isInvalidInt) = true := by
  cases exp <;> simp only [aeo_delta] <;> try split
  all_goals simp [Diag.isInvalidInt]

/-- C3 counterexample: the literal `1` at type `u8` checked with the
negate context flag set emits no diagnostic, although the claim's
minus-prefixed text `-1` is not representable as `u8`: the code ignores
the negate flag for unsigned widths. -/
theorem literal_negate_unsigned_cex :
    visit_literal (.integerLit .u8 "1") none ⟨true, []⟩
      = (some (Ty.integerType .u8), ⟨true, []⟩) ∧
    representableIn .u8 (maybe_negate true "1") = false := by
  constructor <;> decide

/-- C3 (amended): for an integer literal whose text is a nonempty string
of decimal digits, checking emits no invalid-integer-literal diagnostic
iff the text — prefixed with a minus sign exactly when the negate context
flag is set AND the declared type is signed (the flag is ignored for
unsigned widths) — is representable in the exact width/signedness range. -/
theorem integer_literal_range_spec (ty : IntegerType) (text : String)
    (expected : Option Ty) (neg : Bool)
    (h1 : text.data ≠ []) (h2 : text.data.all isDigit = true) :
    ((visit_literal (.integerLit ty text) expected ⟨neg, []⟩).2.diags.all
        (fun d => !d.isInvalidInt) = true) ↔
      representableIn ty (maybe_negate (neg && ty.isSigned) text) = true := by
  have hdiags : (visit_literal (.integerLit ty text) expected ⟨neg, []⟩).2.diags
      = checkIntLiteral neg ty text ++ aeo_delta (Ty.integerType ty) expected := by
    simp [visit_literal]
  rw [hdiags, List.all_append, aeo_delta_no_invalid, Bool.and_true]
  cases ty <;> cases neg <;>
    simp [checkIntLiteral, maybe_negate, IntegerType.isSigned, IntegerType.bits,
      all_if_invalid, Diag.isInvalidInt,
      rustParseSigned_negated text h1 h2, rustParseSigned_digits text h1 h2,
      rustParseUnsigned_digits text h1 h2, representableIn,
      decTextVal_negated text h1 h2, decTextVal_digits text h1 h2,
      tyLo, tyHi] <;> omega

theorem integer_literal_range_spec_witness :
    ("128" : String).data ≠ [] ∧ ("128" : String).data.all isDigit = true ∧
    (((visit_literal (.integerLit .i8 "128") none ⟨true, []⟩).2.diags.all
        (fun d => !d.isInvalidInt) = true) ↔
      representableIn .i8 (maybe_negate (true && IntegerType.isSigned .i8) "128") = true) :=
  ⟨by decide, by decide, integer_literal_range_spec .i8 "128" none true (by decide) (by decide)⟩
